import Mathlib

/-!
Formal model of the LunaTV_emby cross-source aggregation core.

This file embeds, as executable Lean definitions, the parts of the
repository that the verification below is about:

* `EmbyManager` (`src/unnamed/part_002`): source-list resolution from the
  admin configuration (`getSources`), client-handle resolution and caching
  (`getClient`, `getAllClients`, `clearCache`);
* the short-TTL cache (`src/src/lib/emby-cache.ts`):
  `makeListCacheKey`, `getCachedEmbyList`, `setCachedEmbyList`;
* the `/api/search` fan-out handler
  (`src/src/app/api/source-test/route.ts`, second document in the file):
  the per-Emby-instance search task with its source-tag assignment, the
  aggregation of the API-site tasks, and the yellow-words content filter;
* the Emby detail episode ordering (`src/src/lib/special-sources-detail.ts`,
  `getEmbyDetail`, series branch);
* the Emby play proxy with its 401 retry (`src/unnamed/part_001`, second
  document in the file).

JavaScript `Map`s are modelled as association lists whose `set` replaces an
existing binding in place (preserving insertion order) and appends otherwise,
matching ECMAScript `Map` semantics.  JavaScript timestamps are `Nat`
milliseconds.  `Promise` fates (fulfilled / thrown / timed out) are made
explicit through the `TaskFate` type.
-/

namespace LunaTV

/-! ### Association-list model of a JavaScript `Map` -/

/-- Look up a key in an association list: the value of the first binding with
this key, as JavaScript `Map.get`. -/
def lookupAssoc {α : Type} (m : List (String × α)) (k : String) : Option α :=
  (m.find? (fun p => p.1 == k)).map (fun p => p.2)

/-- JavaScript `Map.set`: replace the first binding with this key in place,
otherwise append a new binding. -/
def setAssoc {α : Type} (m : List (String × α)) (k : String) (v : α) :
    List (String × α) :=
  match m with
  | [] => [(k, v)]
  | (k', v') :: rest =>
      if k' = k then (k, v) :: rest else (k', v') :: setAssoc rest k v

/-- JavaScript `Map.delete`: drop every binding with this key. -/
def deleteAssoc {α : Type} (m : List (String × α)) (k : String) :
    List (String × α) :=
  m.filter (fun p => !(p.1 == k))

/-! ### Emby source configuration (`src/unnamed/part_002`, `EmbySourceConfig`) -/

/-- One configured Emby source, as the `EmbySourceConfig` interface of
`src/unnamed/part_002`.  Optional TypeScript fields become `Option`s. -/
structure EmbySourceConfig where
  key : String
  name : String
  enabled : Bool
  ServerURL : String
  ApiKey : Option String := none
  Username : Option String := none
  Password : Option String := none
  UserId : Option String := none
  AuthToken : Option String := none
  Libraries : Option (List String) := none
  LastSyncTime : Option Nat := none
  ItemCount : Option Nat := none
  isDefault : Option Bool := none
  deriving Repr, DecidableEq

/-- A live Emby client handle.  The class `EmbyClient` itself is outside the
repository snapshot; for handle-identity reasoning each constructed handle
records the configuration it was built from and a construction serial number
(`ctorId`), so two separately constructed handles are distinguishable. -/
structure EmbyClient where
  config : EmbySourceConfig
  ctorId : Nat
  deriving Repr, DecidableEq

/-- The mutable state of the `EmbyManager` singleton: its `clients` map,
plus the serial counter used to mint fresh `ctorId`s. -/
structure ManagerState where
  clients : List (String × EmbyClient)
  nextId : Nat
  deriving Repr, DecidableEq

deriving instance DecidableEq for Except

/-- The errors thrown by `EmbyManager.getClient`. -/
inductive EmbyError where
  /-- thrown message `'未配置 Emby 源'` -/
  | notConfigured
  /-- thrown message `'未找到 Emby 源: <key>'` -/
  | notFound (key : String)
  /-- thrown message `'Emby 源已禁用: <name>'` -/
  | disabled (name : String)
  deriving Repr, DecidableEq

/-- The instance selected when no key is supplied:
`sources.find(s => s.isDefault) || sources[0]` (`part_002` line 87).
Note the fallback is the first source, enabled or not. -/
def defaultSource (s0 : EmbySourceConfig) (rest : List EmbySourceConfig) :
    EmbySourceConfig :=
  ((s0 :: rest).find? (fun s => s.isDefault == some true)).getD s0

/-- `EmbyManager.getClient` (`part_002` lines 78-106).  `keyArg = none` or
`some ""` both take the no-key path, since the source tests `if (!key)` and
the empty string is falsy.  The cached-handle check happens before the
existence and enabled checks, exactly as in the source. -/
def getClient (sources : List EmbySourceConfig) (st : ManagerState)
    (keyArg : Option String) : Except EmbyError (EmbyClient × ManagerState) :=
  match sources with
  | [] => .error .notConfigured
  | s0 :: rest =>
      let key : String :=
        match keyArg with
        | none => (defaultSource s0 rest).key
        | some k => if k = "" then (defaultSource s0 rest).key else k
      match lookupAssoc st.clients key with
      | some c => .ok (c, st)
      | none =>
          match (s0 :: rest).find? (fun s => s.key == key) with
          | none => .error (.notFound key)
          | some sc =>
              if sc.enabled then
                let c : EmbyClient := ⟨sc, st.nextId⟩
                .ok (c, ⟨st.clients ++ [(key, c)], st.nextId + 1⟩)
              else .error (.disabled sc.name)

/-- The body of the `for (const source of enabledSources)` loop of
`EmbyManager.getAllClients` (`part_002` lines 116-124): construct a client
only when the key is missing from the `clients` map, then put the (cached
or fresh) client into the result map. -/
def getAllClientsStep
    (acc : List (String × (EmbyClient × EmbySourceConfig)) × ManagerState)
    (source : EmbySourceConfig) :
    List (String × (EmbyClient × EmbySourceConfig)) × ManagerState :=
  match lookupAssoc acc.2.clients source.key with
  | some c => (setAssoc acc.1 source.key (c, source), acc.2)
  | none =>
      let c : EmbyClient := ⟨source, acc.2.nextId⟩
      (setAssoc acc.1 source.key (c, source),
       ⟨acc.2.clients ++ [(source.key, c)], acc.2.nextId + 1⟩)

/-- `EmbyManager.getAllClients` (`part_002` lines 111-127): walk the enabled
sources in order, constructing a client only for keys missing from the
`clients` map, and build the result map with JavaScript `Map.set`
semantics. -/
def getAllClients (sources : List EmbySourceConfig) (st : ManagerState) :
    List (String × (EmbyClient × EmbySourceConfig)) × ManagerState :=
  (sources.filter (fun s => s.enabled)).foldl getAllClientsStep ([], st)

/-- `EmbyManager.clearCache` (`part_002` lines 148-150): empty the clients
map.  The serial counter is bookkeeping of the model, not of the source. -/
def clearCache (st : ManagerState) : ManagerState :=
  ⟨[], st.nextId⟩

/-- The `resolveHandle` contract as the specification words it (spec §4.1):
key omitted selects the `isDefault` instance, falling back to the first
*enabled* instance; `NotConfigured` on zero instances, `Disabled` when the
resolved instance is disabled, `NotFound` when a non-empty key matches no
instance, and the handle cache is consulted only after those checks.  The
case with no default and no enabled instance is not covered by the spec's
words; it is mapped to `NotConfigured` here and avoided by every input this
definition is evaluated at. -/
def resolveHandleSpec (sources : List EmbySourceConfig) (st : ManagerState)
    (keyArg : Option String) : Except EmbyError (EmbyClient × ManagerState) :=
  if sources.isEmpty then .error .notConfigured
  else
    let resolved : Option EmbySourceConfig :=
      match keyArg with
      | none => (sources.find? (fun s => s.isDefault == some true)) <|>
          (sources.find? (fun s => s.enabled))
      | some k => sources.find? (fun s => s.key == k)
    match keyArg, resolved with
    | some k, none => .error (.notFound k)
    | _, none => .error .notConfigured
    | _, some sc =>
        if sc.enabled then
          match lookupAssoc st.clients sc.key with
          | some c => .ok (c, st)
          | none =>
              let c : EmbyClient := ⟨sc, st.nextId⟩
              .ok (c, ⟨st.clients ++ [(sc.key, c)], st.nextId + 1⟩)
        else .error (.disabled sc.name)

/-- The amended `resolveHandle` contract, written from the amended claim:
with the key omitted or empty it selects the `isDefault` instance, falling
back to the *first* instance regardless of its enabled flag; it fails
`NotConfigured` on zero instances; a cached handle for the resolved key is
returned without any further check; only an uncached key is checked for
existence (`NotFound`) and enabledness (`Disabled`) before a new handle is
constructed, cached and returned. -/
def resolveHandleAmended (sources : List EmbySourceConfig) (st : ManagerState)
    (keyArg : Option String) : Except EmbyError (EmbyClient × ManagerState) :=
  if h : sources.isEmpty then .error .notConfigured
  else
    let first : EmbySourceConfig := sources.head (by simpa using h)
    let resolvedKey : String :=
      match keyArg with
      | none =>
          ((sources.find? (fun s => s.isDefault == some true)).getD first).key
      | some k =>
          if k = "" then
            ((sources.find? (fun s => s.isDefault == some true)).getD first).key
          else k
    match lookupAssoc st.clients resolvedKey with
    | some c => .ok (c, st)
    | none =>
        match sources.find? (fun s => s.key == resolvedKey) with
        | none => .error (.notFound resolvedKey)
        | some sc =>
            if sc.enabled then
              let c : EmbyClient := ⟨sc, st.nextId⟩
              .ok (c, ⟨st.clients ++ [(resolvedKey, c)], st.nextId + 1⟩)
            else .error (.disabled sc.name)

/-! ### Admin configuration shapes and `EmbyManager.getSources`
(`src/unnamed/part_002`, lines 44-72) -/

/-- The `EmbyConfig` field of the admin configuration, holding either the
modern multi-instance shape (`Sources` array) or the legacy single-instance
fields, all optional as in the TypeScript type. -/
structure EmbyConfigShape where
  Sources : Option (List EmbySourceConfig) := none
  Enabled : Option Bool := none
  ServerURL : Option String := none
  ApiKey : Option String := none
  Username : Option String := none
  Password : Option String := none
  UserId : Option String := none
  AuthToken : Option String := none
  Libraries : Option (List String) := none
  LastSyncTime : Option Nat := none
  ItemCount : Option Nat := none
  deriving Repr, DecidableEq

/-- The slice of `AdminConfig` that `getSources` reads. -/
structure AdminConfigM where
  EmbyConfig : Option EmbyConfigShape := none
  deriving Repr, DecidableEq

/-- The one-element legacy upgrade produced by `getSources`
(`part_002` lines 54-68). -/
def legacySource (ec : EmbyConfigShape) (url : String) : EmbySourceConfig :=
  { key := "default"
    name := "Emby"
    enabled := ec.Enabled.getD false
    ServerURL := url
    ApiKey := ec.ApiKey
    Username := ec.Username
    Password := ec.Password
    UserId := ec.UserId
    AuthToken := ec.AuthToken
    Libraries := ec.Libraries
    LastSyncTime := ec.LastSyncTime
    ItemCount := ec.ItemCount
    isDefault := some true }

/-- `EmbyManager.getSources` (`part_002` lines 44-72): a present `Sources`
array is returned as-is; otherwise a truthy (present and non-empty)
`ServerURL` yields the one-element legacy upgrade; otherwise the list is
empty.  `if (config.EmbyConfig?.ServerURL)` is JavaScript truthiness, so an
empty `ServerURL` string behaves like an absent one. -/
def getSources (config : AdminConfigM) : List EmbySourceConfig :=
  match config.EmbyConfig with
  | none => []
  | some ec =>
      match ec.Sources with
      | some sources => sources
      | none =>
          match ec.ServerURL with
          | some url => if url = "" then [] else [legacySource ec url]
          | none => []

/-! ### The short-TTL Emby cache (`src/src/lib/emby-cache.ts`) -/

/-- `EmbyCachedEntry<T>` (`emby-cache.ts` lines 4-7). -/
structure EmbyCachedEntry (α : Type) where
  expiresAt : Nat
  data : α
  deriving Repr, DecidableEq

/-- `EMBY_CACHE_TTL_MS = 6 * 60 * 60 * 1000` (`emby-cache.ts` line 10). -/
def EMBY_CACHE_TTL_MS : Nat := 6 * 60 * 60 * 1000

/-- The `EMBY_CACHE` map, keyed by the composite cache-key strings. -/
abbrev EmbyCache (α : Type) := List (String × EmbyCachedEntry α)

/-- `makeListCacheKey` (`emby-cache.ts` lines 18-21).  Both ternaries test
JavaScript truthiness, so empty-string `embyKey`/`parentId` behave like
absent ones. -/
def makeListCacheKey (page pageSize : Nat) (parentId embyKey : Option String) :
    String :=
  let keyPrefix :=
    match embyKey with
    | some k => if k = "" then "emby" else "emby:" ++ k
    | none => "emby"
  match parentId with
  | some pid =>
      if pid = "" then
        keyPrefix ++ ":list:" ++ toString page ++ ":" ++ toString pageSize
      else
        keyPrefix ++ ":list:" ++ toString page ++ ":" ++ toString pageSize
          ++ ":" ++ pid
  | none => keyPrefix ++ ":list:" ++ toString page ++ ":" ++ toString pageSize

/-- `getCachedEmbyList` (`emby-cache.ts` lines 26-43), with `Date.now()`
made an explicit `now` argument.  Returns the hit (if any) together with the
cache after the read, since an expired entry deletes itself. -/
def getCachedEmbyList {α : Type} (now : Nat) (cache : EmbyCache α)
    (page pageSize : Nat) (parentId embyKey : Option String) :
    Option α × EmbyCache α :=
  let key := makeListCacheKey page pageSize parentId embyKey
  match lookupAssoc cache key with
  | none => (none, cache)
  | some entry =>
      if entry.expiresAt ≤ now then (none, deleteAssoc cache key)
      else (some entry.data, cache)

/-- `setCachedEmbyList` (`emby-cache.ts` lines 48-61), with `Date.now()`
made an explicit `now` argument. -/
def setCachedEmbyList {α : Type} (now : Nat) (cache : EmbyCache α)
    (page pageSize : Nat) (data : α) (parentId embyKey : Option String) :
    EmbyCache α :=
  setAssoc cache (makeListCacheKey page pageSize parentId embyKey)
    ⟨now + EMBY_CACHE_TTL_MS, data⟩

/-! ### The `/api/search` fan-out handler
(`src/src/app/api/source-test/route.ts`, second document, lines 559-781) -/

/-- The fate of one concurrently dispatched backend task: fulfilled with a
payload, rejected by a thrown error, or beaten by its 20-second
`Promise.race` timeout. -/
inductive TaskFate (α : Type) where
  | fulfilled (payload : α)
  | throws
  | timesOut
  deriving Repr, DecidableEq

/-- One raw Emby search hit, as consumed by the Emby search task
(`route.ts` lines 649-672). -/
structure EmbyItem where
  Id : String
  Name : String
  ProductionYear : Option Int := none
  Overview : Option String := none
  /-- the `Type` field of the Emby item (`Type` is reserved in Lean). -/
  itemType : String
  deriving Repr, DecidableEq

/-- The unified search-result shape the handler builds (`route.ts` lines
662-674); `type_name` is optional because generic API sites may omit it. -/
structure SearchResultM where
  id : String
  source : String
  source_name : String
  title : String
  poster : String
  episodes : List String := []
  episodes_titles : List String := []
  year : String
  desc : String
  type_name : Option String := none
  douban_id : Nat := 0
  deriving Repr, DecidableEq

/-- One enabled Emby instance as seen by the handler: the value list of the
`getAllClients` map (`route.ts` lines 639-640), with the client's
`getImageUrl` kept abstract and the fate of this instance's search task made
explicit. -/
structure EmbyBackend where
  cfg : EmbySourceConfig
  getImageUrl : String → String
  fate : TaskFate (List EmbyItem)

/-- The results produced by one Emby search task (`route.ts` lines 647-686):
on fulfilment the raw items are mapped to unified results with the source
tag `'emby'` when `embySources.length === 1` and `'emby_' + key` otherwise;
a thrown error is caught inside the task and degrades to `[]`, and a
timeout is caught by the `.catch` on the race and also degrades to `[]`. -/
def embyTaskResults (numEnabled : Nat) (cfgKey cfgName : String)
    (getImageUrl : String → String) (fate : TaskFate (List EmbyItem)) :
    List SearchResultM :=
  match fate with
  | .fulfilled items =>
      let sourceValue := if numEnabled = 1 then "emby" else "emby_" ++ cfgKey
      let sourceName := if numEnabled = 1 then "Emby" else cfgName
      items.map (fun item =>
        { id := item.Id
          source := sourceValue
          source_name := sourceName
          title := item.Name
          poster := getImageUrl item.Id
          episodes := []
          episodes_titles := []
          year := (item.ProductionYear.map toString).getD ""
          desc := item.Overview.getD ""
          type_name := some (if item.itemType = "Movie" then "电影" else "电视剧")
          douban_id := 0 })
  | .throws => []
  | .timesOut => []

/-- The per-instance result lists of `embyPromises` (`route.ts` line 646):
one entry per enabled Emby instance, in instance order. -/
def embyPromisesResults (embyBackends : List EmbyBackend) :
    List (List SearchResultM) :=
  embyBackends.map (fun b =>
    embyTaskResults embyBackends.length b.cfg.key b.cfg.name b.getImageUrl
      b.fate)

/-- The outcome of one generic-API-site task (`route.ts` lines 688-698):
`searchFromApi` results on fulfilment, `[]` for a thrown error or a race
timeout (both land in the `.catch` that returns `[]`). -/
def apiSiteTaskOutcome (fate : TaskFate (List SearchResultM)) :
    List SearchResultM :=
  match fate with
  | .fulfilled rs => rs
  | .throws => []
  | .timesOut => []

/-- Substring containment, as JavaScript `String.includes`. -/
def strIncludes (hay needle : String) : Bool :=
  needle.isEmpty || (hay.splitOn needle).length != 1

/-- One result survives the yellow filter exactly when its
`type_name || ''` contains none of the blacklisted words
(`route.ts` lines 708-711). -/
def passesYellow (yellowWords : List String) (r : SearchResultM) : Bool :=
  !(yellowWords.any (fun word => strIncludes (r.type_name.getD "") word))

/-- The content-policy filter stage (`route.ts` lines 707-712): applied to
the flattened list unless `SiteConfig.DisableYellowFilter` is set. -/
def applyYellowFilter (disableYellowFilter : Bool) (yellowWords : List String)
    (l : List SearchResultM) : List SearchResultM :=
  if disableYellowFilter then l else l.filter (passesYellow yellowWords)

/-- The result list returned by `GET /api/search` (`route.ts` lines 596-761)
for an authorized caller, with the backend world made explicit: an empty
query short-circuits to `[]`; otherwise the handler computes the per-Emby
search task results (`embyPromises`, line 646) and — as in the source —
never awaits them: only the API-site tasks (`searchPromises`) are passed to
`Promise.allSettled`, flattened and filtered. -/
def searchAggregate (disableYellowFilter : Bool) (yellowWords : List String)
    (query : String) (embyBackends : List EmbyBackend)
    (apiTasks : List (TaskFate (List SearchResultM))) : List SearchResultM :=
  if query = "" then []
  else
    let embyResults := embyPromisesResults embyBackends
    let successResults := apiTasks.map apiSiteTaskOutcome
    let flattenedResults := successResults.flatten
    let _ := embyResults
    applyYellowFilter disableYellowFilter yellowWords flattenedResults

/-! ### Emby detail episode ordering
(`src/src/lib/special-sources-detail.ts`, `getEmbyDetail`, lines 56-93) -/

/-- One Emby episode as far as the series sort is concerned. -/
structure EmbyEpisode where
  Id : String
  ParentIndexNumber : Option Int := none
  IndexNumber : Option Int := none
  deriving Repr, DecidableEq

/-- JavaScript `x || 0` on a possibly-absent number. -/
def numOr0 (o : Option Int) : Int := o.getD 0

/-- The sort comparator of `getEmbyDetail` (`special-sources-detail.ts`
lines 67-72): when the raw `ParentIndexNumber`s differ (JavaScript `!==`,
so `undefined` differs from `0`) compare their `|| 0` defaults, else
compare the `IndexNumber` defaults.  Note that for one absent and one zero
season index the first branch applies and returns `0`, skipping the episode
tie-break. -/
def embyCompare (a b : EmbyEpisode) : Int :=
  if a.ParentIndexNumber ≠ b.ParentIndexNumber then
    numOr0 a.ParentIndexNumber - numOr0 b.ParentIndexNumber
  else
    numOr0 a.IndexNumber - numOr0 b.IndexNumber

/-- The non-strict order induced by the comparator: `a` may come before `b`
exactly when the comparator does not demand the opposite order. -/
def embyLe (a b : EmbyEpisode) : Prop := embyCompare a b ≤ 0

instance : DecidableRel embyLe := fun a b => Int.decLe (embyCompare a b) 0

/-- `allEpisodes.sort(comparator)`: ECMAScript `Array.prototype.sort` is
stable, and on a comparator that is a total preorder every stable sort
returns the same list, here given by insertion sort with the relation
`embyLe`. -/
def embySortEpisodes (eps : List EmbyEpisode) : List EmbyEpisode :=
  eps.insertionSort embyLe

/-- The episode list of `getEmbyDetail` on a series-shaped item
(`special-sources-detail.ts` lines 57-72): concatenate the per-season
episode lists in season order, then sort with the comparator. -/
def getEmbyDetailEpisodes (seasonEpisodes : List (List EmbyEpisode)) :
    List EmbyEpisode :=
  embySortEpisodes seasonEpisodes.flatten

/-- The `(ParentIndexNumber ?? 0, IndexNumber ?? 0)` lexicographic order the
claim describes the output as sorted by. -/
def epKeyLe (a b : EmbyEpisode) : Prop :=
  numOr0 a.ParentIndexNumber < numOr0 b.ParentIndexNumber ∨
    (numOr0 a.ParentIndexNumber = numOr0 b.ParentIndexNumber ∧
      numOr0 a.IndexNumber ≤ numOr0 b.IndexNumber)

instance : DecidableRel epKeyLe := fun a b => by
  unfold epKeyLe; infer_instance

/-! ### The Emby play proxy and its 401 retry
(`src/unnamed/part_001`, second document, lines 59-168) -/

/-- The observable outcome of the play-proxy handler. -/
inductive ProxyOutcome where
  /-- `401 '未授权'`: neither TVBox token nor login cookie. -/
  | unauthorized
  /-- `400 '缺少 itemId 参数'`. -/
  | missingItemId
  /-- the upstream body streamed through with the upstream status. -/
  | stream (status : Nat)
  /-- `500 '获取视频流失败'`. -/
  | fetchFailed
  deriving Repr, DecidableEq

/-- What the play-proxy handler did on one request: how many upstream
fetches it issued, how many times it resolved a client (and rebuilt the
stream URL), whether it called `embyManager.clearCache()`, and the
response. -/
structure ProxyTrace where
  fetchCount : Nat
  resolveCount : Nat
  cacheCleared : Bool
  outcome : ProxyOutcome
  deriving Repr, DecidableEq

/-- `fetch` `Response.ok`: status in the 200-299 range. -/
def statusOk (s : Nat) : Bool := 200 ≤ s && s < 300

/-- The play-proxy `GET` handler (`part_001` lines 59-168) with the two
possible upstream fetch statuses supplied as oracles (`resp2` is consulted
only when the first fetch returns 401): after the authorization and
`itemId` checks it resolves a client, builds the stream URL and fetches;
on a 401 it clears the manager's handle cache, re-resolves, rebuilds the
URL and fetches exactly once more; a response that is still not ok yields
the 500 error response, and an ok response is streamed through. -/
def embyPlayProxy (authorized : Bool) (itemId : Option String)
    (resp1 resp2 : Nat) : ProxyTrace :=
  if !authorized then ⟨0, 0, false, .unauthorized⟩
  else
    match itemId with
    | none => ⟨0, 0, false, .missingItemId⟩
    | some _ =>
        if resp1 = 401 then
          if statusOk resp2 then ⟨2, 2, true, .stream resp2⟩
          else ⟨2, 2, true, .fetchFailed⟩
        else
          if statusOk resp1 then ⟨1, 1, false, .stream resp1⟩
          else ⟨1, 1, false, .fetchFailed⟩

/-! ### Concrete instances used by the counterexamples and witnesses -/

/-- A disabled source without `isDefault`, listed first. -/
def srcA : EmbySourceConfig :=
  { key := "a", name := "A", enabled := false, ServerURL := "http://a" }

/-- An enabled source without `isDefault`, listed second. -/
def srcB : EmbySourceConfig :=
  { key := "b", name := "B", enabled := true, ServerURL := "http://b" }

/-- A handle for the enabled source `srcB`. -/
def cachedB : EmbyClient := ⟨srcB, 7⟩

/-- A manager state caching `cachedB` under key `"b"`. -/
def stWithB : ManagerState := ⟨[("b", cachedB)], 8⟩

/-- A handle for the disabled source `srcA`. -/
def cachedA : EmbyClient := ⟨srcA, 3⟩

/-- A manager state caching `cachedA` under key `"a"`. -/
def stWithA : ManagerState := ⟨[("a", cachedA)], 4⟩

/-- A movie item returned by the demo Emby search task. -/
def demoItem : EmbyItem := { Id := "i1", Name := "Movie One", itemType := "Movie" }

/-- One enabled Emby instance whose search task fulfils with one item. -/
def demoBackend : EmbyBackend :=
  { cfg := srcB, getImageUrl := fun _ => "", fate := .fulfilled [demoItem] }

/-- One generic-API-site search hit. -/
def demoApiResult : SearchResultM :=
  { id := "x", source := "site1", source_name := "Site 1", title := "T",
    poster := "", year := "", desc := "", type_name := some "电影" }

/-- The unified result the demo Emby task produces for `demoItem`. -/
def demoEmbyResult : SearchResultM :=
  { id := "i1", source := "emby", source_name := "Emby", title := "Movie One",
    poster := "", year := "", desc := "", type_name := some "电影" }

/-- A second enabled source, for the two-instance tagging case. -/
def srcC : EmbySourceConfig :=
  { key := "c", name := "C", enabled := true, ServerURL := "http://c" }

/-- A second enabled Emby instance whose search task also fulfils with
`demoItem`. -/
def demoBackendC : EmbyBackend :=
  { cfg := srcC, getImageUrl := fun _ => "", fate := .fulfilled [demoItem] }

/-- The unified result `demoBackendC`'s task produces for `demoItem` when
two instances are enabled: tagged with its own instance key. -/
def demoEmbyResultC : SearchResultM :=
  { id := "i1", source := "emby_c", source_name := "C", title := "Movie One",
    poster := "", year := "", desc := "", type_name := some "电影" }

/-- Episode with an absent season index and episode index 5. -/
def epNone5 : EmbyEpisode := { Id := "u", IndexNumber := some 5 }

/-- Episode with season index 0 and episode index 1. -/
def epZero1 : EmbyEpisode :=
  { Id := "z", ParentIndexNumber := some 0, IndexNumber := some 1 }

/-- Episode (season 1, episode 2) of the spec's ordering example. -/
def ep12 : EmbyEpisode :=
  { Id := "a", ParentIndexNumber := some 1, IndexNumber := some 2 }

/-- Episode (season 1, episode 1) of the spec's ordering example. -/
def ep11 : EmbyEpisode :=
  { Id := "b", ParentIndexNumber := some 1, IndexNumber := some 1 }

/-- Episode (season 2, episode 1) of the spec's ordering example. -/
def ep21 : EmbyEpisode :=
  { Id := "c", ParentIndexNumber := some 2, IndexNumber := some 1 }

/-- The episode of the spec's ordering example missing both indices. -/
def epMissing : EmbyEpisode := { Id := "d" }

/-- The season groupings of the spec's ordering example. -/
def exSeasons : List (List EmbyEpisode) := [[ep12, ep11], [ep21], [epMissing]]

/-! ## Helper lemmas -/

theorem lookupAssoc_cons {α : Type} (k' : String) (v' : α)
    (rest : List (String × α)) (k : String) :
    lookupAssoc ((k', v') :: rest) k =
      if k' = k then some v' else lookupAssoc rest k := by
  by_cases h : k' = k
  · have hb : (k' == k) = true := by simpa using h
    simp [lookupAssoc, List.find?, hb, h]
  · have hb : (k' == k) = false := by simpa using h
    simp [lookupAssoc, List.find?, hb, h]

theorem deleteAssoc_cons {α : Type} (k' : String) (v' : α)
    (rest : List (String × α)) (k : String) :
    deleteAssoc ((k', v') :: rest) k =
      if k' = k then deleteAssoc rest k
      else (k', v') :: deleteAssoc rest k := by
  by_cases h : k' = k
  · have hb : (k' == k) = true := by simpa using h
    simp [deleteAssoc, List.filter, hb, h]
  · have hb : (k' == k) = false := by simpa using h
    simp [deleteAssoc, List.filter, hb, h]

theorem lookupAssoc_setAssoc_self {α : Type} (m : List (String × α))
    (k : String) (v : α) : lookupAssoc (setAssoc m k v) k = some v := by
  induction m with
  | nil => simp [setAssoc, lookupAssoc_cons, lookupAssoc]
  | cons p rest ih =>
      obtain ⟨k', v'⟩ := p
      by_cases h : k' = k
      · subst h
        simp [setAssoc, lookupAssoc_cons]
      · simp [setAssoc, if_neg h, lookupAssoc_cons, h, ih]

theorem lookupAssoc_deleteAssoc_self {α : Type} (m : List (String × α))
    (k : String) : lookupAssoc (deleteAssoc m k) k = none := by
  induction m with
  | nil => simp [deleteAssoc, lookupAssoc]
  | cons p rest ih =>
      obtain ⟨k', v'⟩ := p
      by_cases h : k' = k
      · simpa [deleteAssoc_cons, h] using ih
      · simpa [deleteAssoc_cons, h, lookupAssoc_cons] using ih

theorem lookupAssoc_append_left {α : Type} (m m' : List (String × α))
    (k : String) (c : α) (h : lookupAssoc m k = some c) :
    lookupAssoc (m ++ m') k = some c := by
  induction m with
  | nil => simp [lookupAssoc] at h
  | cons p rest ih =>
      obtain ⟨k', v'⟩ := p
      rw [List.cons_append, lookupAssoc_cons]
      rw [lookupAssoc_cons] at h
      by_cases hk : k' = k
      · simpa [hk] using h
      · rw [if_neg hk] at h ⊢
        exact ih h

theorem mem_setAssoc {α : Type} (m : List (String × α)) (k : String) (v : α)
    (p : String × α) (hp : p ∈ setAssoc m k v) : p = (k, v) ∨ p ∈ m := by
  induction m with
  | nil => simpa [setAssoc] using hp
  | cons q rest ih =>
      obtain ⟨k', v'⟩ := q
      by_cases h : k' = k
      · subst h
        simp [setAssoc] at hp
        rcases hp with hp | hp
        · exact Or.inl (by simp [hp])
        · exact Or.inr (by simp [hp])
      · simp only [setAssoc, if_neg h] at hp
        rcases List.mem_cons.mp hp with hp | hp
        · exact Or.inr (by simp [hp])
        · rcases ih hp with hp | hp
          · exact Or.inl hp
          · exact Or.inr (List.mem_cons_of_mem _ hp)

/-! ## C6: cache expiry semantics -/

/-- C6.  After `setCachedEmbyList` stores a value at time `t0` (so
`expiresAt = t0 + EMBY_CACHE_TTL_MS`), a read of the same
`(page, pageSize, parentId, embyKey)` at a time strictly before `expiresAt`
returns the stored value and leaves the cache unchanged, and a read at or
after `expiresAt` returns absent and deletes the entry from the cache
map. -/
theorem cache_expiry_semantics {α : Type} (cache : EmbyCache α)
    (t0 t1 page pageSize : Nat) (parentId embyKey : Option String) (data : α) :
    (t1 < t0 + EMBY_CACHE_TTL_MS →
      getCachedEmbyList t1
          (setCachedEmbyList t0 cache page pageSize data parentId embyKey)
          page pageSize parentId embyKey =
        (some data,
         setCachedEmbyList t0 cache page pageSize data parentId embyKey)) ∧
    (t0 + EMBY_CACHE_TTL_MS ≤ t1 →
      (getCachedEmbyList t1
          (setCachedEmbyList t0 cache page pageSize data parentId embyKey)
          page pageSize parentId embyKey).1 = none ∧
      lookupAssoc
          (getCachedEmbyList t1
            (setCachedEmbyList t0 cache page pageSize data parentId embyKey)
            page pageSize parentId embyKey).2
          (makeListCacheKey page pageSize parentId embyKey) = none) := by
  have hset :
      lookupAssoc
        (setCachedEmbyList t0 cache page pageSize data parentId embyKey)
        (makeListCacheKey page pageSize parentId embyKey) =
      some ⟨t0 + EMBY_CACHE_TTL_MS, data⟩ :=
    lookupAssoc_setAssoc_self ..
  constructor
  · intro hlt
    simp only [getCachedEmbyList, hset]
    rw [if_neg (by omega)]
  · intro hge
    simp only [getCachedEmbyList, hset]
    rw [if_pos (by omega)]
    exact ⟨rfl, lookupAssoc_deleteAssoc_self ..⟩

/-- C6 witness: a concrete set at time 0 read back at times 1 (hit) and
`EMBY_CACHE_TTL_MS` (expired, self-evicting). -/
theorem cache_expiry_semantics_witness :
    getCachedEmbyList 1
        (setCachedEmbyList 0 ([] : EmbyCache Nat) 1 20 42 none none)
        1 20 none none =
      (some 42, setCachedEmbyList 0 ([] : EmbyCache Nat) 1 20 42 none none) ∧
    (getCachedEmbyList EMBY_CACHE_TTL_MS
        (setCachedEmbyList 0 ([] : EmbyCache Nat) 1 20 42 none none)
        1 20 none none).1 = none :=
  ⟨(cache_expiry_semantics ([] : EmbyCache Nat) 0 1 1 20 none none 42).1
      (by decide),
   ((cache_expiry_semantics ([] : EmbyCache Nat) 0 EMBY_CACHE_TTL_MS 1 20
      none none 42).2 (by decide)).1⟩

/-! ## C7: dual-format tolerance of the source list -/

/-- C7.  `getSources` returns a present modern `Sources` array as-is;
with only the legacy single-instance shape (a truthy `ServerURL`) it
returns exactly one element carrying the legacy connection fields with
`isDefault = some true`; with neither shape present it returns the empty
list. -/
theorem listInstances_dual_format (config : AdminConfigM) :
    (∀ ec sources, config.EmbyConfig = some ec → ec.Sources = some sources →
      getSources config = sources) ∧
    (∀ ec url, config.EmbyConfig = some ec → ec.Sources = none →
      ec.ServerURL = some url → url ≠ "" →
      getSources config = [legacySource ec url] ∧
      (legacySource ec url).isDefault = some true ∧
      (legacySource ec url).ServerURL = url ∧
      (legacySource ec url).ApiKey = ec.ApiKey ∧
      (legacySource ec url).Username = ec.Username ∧
      (legacySource ec url).Password = ec.Password ∧
      (legacySource ec url).UserId = ec.UserId ∧
      (legacySource ec url).AuthToken = ec.AuthToken ∧
      (legacySource ec url).enabled = ec.Enabled.getD false) ∧
    ((config.EmbyConfig = none ∨
        ∃ ec, config.EmbyConfig = some ec ∧ ec.Sources = none ∧
          (ec.ServerURL = none ∨ ec.ServerURL = some "")) →
      getSources config = []) := by
  refine ⟨?_, ?_, ?_⟩
  · intro ec sources hec hs
    simp [getSources, hec, hs]
  · intro ec url hec hs hurl hne
    exact ⟨by simp [getSources, hec, hs, hurl, hne], rfl, rfl, rfl, rfl, rfl,
      rfl, rfl, rfl⟩
  · rintro (hec | ⟨ec, hec, hs, hurl | hurl⟩)
    · simp [getSources, hec]
    · simp [getSources, hec, hs, hurl]
    · simp [getSources, hec, hs, hurl]

/-- C7 witness: the three shapes at concrete configurations. -/
theorem listInstances_dual_format_witness :
    getSources ⟨some { Sources := some [srcA, srcB] }⟩ = [srcA, srcB] ∧
    getSources ⟨some { ServerURL := some "http://b", Enabled := some true }⟩ =
      [legacySource { ServerURL := some "http://b", Enabled := some true }
        "http://b"] ∧
    getSources ⟨none⟩ = [] :=
  ⟨(listInstances_dual_format ⟨some { Sources := some [srcA, srcB] }⟩).1
      { Sources := some [srcA, srcB] } [srcA, srcB] rfl rfl,
   ((listInstances_dual_format
        ⟨some { ServerURL := some "http://b", Enabled := some true }⟩).2.1
      { ServerURL := some "http://b", Enabled := some true } "http://b"
      rfl rfl rfl (by decide)).1,
   (listInstances_dual_format ⟨none⟩).2.2 (Or.inl rfl)⟩

/-! ## C8: playback proxy 401 retry -/

/-- C8.  On a 401 from the first upstream fetch the play proxy clears the
manager's handle cache, re-resolves the client and rebuilds the URL
(`resolveCount = 2`), and fetches exactly once more (`fetchCount = 2`);
when that single retry also fails (any non-ok status, in particular a
second 401) the request ends in the error response with no further fetch;
without a 401 there is exactly one fetch and no cache invalidation. -/
theorem play_proxy_401_retry (itemId : String) (resp1 resp2 : Nat) :
    (resp1 = 401 →
      embyPlayProxy true (some itemId) resp1 resp2 =
        ⟨2, 2, true,
         if statusOk resp2 then .stream resp2 else .fetchFailed⟩) ∧
    (resp1 = 401 → statusOk resp2 = false →
      embyPlayProxy true (some itemId) resp1 resp2 =
        ⟨2, 2, true, .fetchFailed⟩) ∧
    (resp1 ≠ 401 →
      (embyPlayProxy true (some itemId) resp1 resp2).fetchCount = 1 ∧
      (embyPlayProxy true (some itemId) resp1 resp2).cacheCleared = false) := by
  refine ⟨?_, ?_, ?_⟩
  · intro h1
    subst h1
    by_cases h2 : statusOk resp2 = true <;> simp [embyPlayProxy, h2]
  · intro h1 h2
    subst h1
    simp [embyPlayProxy, h2]
  · intro h1
    by_cases hok : statusOk resp1 = true <;> simp [embyPlayProxy, h1, hok]

/-- C8 witness: a first 401 followed by a second 401 gives exactly two
fetches, a cleared handle cache and the terminal error response. -/
theorem play_proxy_401_retry_witness :
    embyPlayProxy true (some "item1") 401 401 = ⟨2, 2, true, .fetchFailed⟩ :=
  (play_proxy_401_retry "item1" 401 401).2.1 rfl (by decide)

/-! ## C9: the yellow-words content filter -/

/-- C9.  For a non-empty query the handler's result is exactly the yellow
filter applied to the flattened API-task outcomes; with the filter disabled
the list passes through unchanged; with it enabled the filter is a pure
pointwise pass: the image of `l₁ ++ r :: l₂` splits around `r`, keeping `r`
itself (unmodified) exactly when it passes, independently of `l₁` and `l₂`;
and a result passes exactly when its `type_name` contains none of the
blacklisted words. -/
theorem yellow_filter_pointwise (yellowWords : List String) :
    (∀ (q : String) (backends : List EmbyBackend)
        (apiTasks : List (TaskFate (List SearchResultM))), q ≠ "" →
      searchAggregate false yellowWords q backends apiTasks =
        applyYellowFilter false yellowWords
          ((apiTasks.map apiSiteTaskOutcome).flatten)) ∧
    (∀ l : List SearchResultM, applyYellowFilter true yellowWords l = l) ∧
    (∀ (l₁ l₂ : List SearchResultM) (r : SearchResultM),
      applyYellowFilter false yellowWords (l₁ ++ r :: l₂) =
        applyYellowFilter false yellowWords l₁ ++
          (if passesYellow yellowWords r then [r] else []) ++
          applyYellowFilter false yellowWords l₂) ∧
    (∀ r : SearchResultM, passesYellow yellowWords r = true ↔
      ∀ w ∈ yellowWords, strIncludes (r.type_name.getD "") w = false) := by
  refine ⟨?_, ?_, ?_, ?_⟩
  · intro q backends apiTasks hq
    simp [searchAggregate, hq]
  · intro l
    simp [applyYellowFilter]
  · intro l₁ l₂ r
    by_cases hr : passesYellow yellowWords r = true <;>
      simp [applyYellowFilter, List.filter_append, List.filter_cons, hr]
  · intro r
    simp [passesYellow, List.any_eq_true]

/-- C9 witness: the route equation at a concrete non-empty query. -/
theorem yellow_filter_pointwise_witness :
    searchAggregate false ["伦理"] "q" [] [.fulfilled [demoApiResult]] =
      applyYellowFilter false ["伦理"]
        (([TaskFate.fulfilled [demoApiResult]].map apiSiteTaskOutcome).flatten) :=
  (yellow_filter_pointwise ["伦理"]).1 "q" [] [.fulfilled [demoApiResult]]
    (by decide)

/-! ## C4: source tags of the Emby search tasks -/

/-- C4.  In the fan-out over the enabled instances `backends`, every result
produced by the search task of an instance `b` (the task the route builds
for `b` with `numEnabled = backends.length`) carries source tag `"emby"`
when exactly one Emby instance is enabled, and `"emby_" ++ b.cfg.key` —
its own producing instance's key — when two or more are enabled. -/
theorem emby_task_source_tags (backends : List EmbyBackend)
    (b : EmbyBackend) (hb : b ∈ backends) (r : SearchResultM)
    (hr : r ∈ embyTaskResults backends.length b.cfg.key b.cfg.name
      b.getImageUrl b.fate) :
    (backends.length = 1 → r.source = "emby") ∧
    (2 ≤ backends.length → r.source = "emby_" ++ b.cfg.key) := by
  rcases hfate : b.fate with items | _ | _
  · rw [hfate] at hr
    simp only [embyTaskResults] at hr
    obtain ⟨item, hitem, hri⟩ := List.mem_map.mp hr
    constructor
    · intro hlen
      rw [← hri]
      simp [hlen]
    · intro hlen
      rw [← hri]
      have hne : backends.length ≠ 1 := by omega
      simp [hne]
  · rw [hfate] at hr
    simp [embyTaskResults] at hr
  · rw [hfate] at hr
    simp [embyTaskResults] at hr

/-- C4 witness: with `demoBackend` the sole enabled instance its result
carries the bare tag `"emby"`, and with the two enabled instances
`[demoBackend, demoBackendC]` the result of `demoBackendC`'s task carries
`"emby_" ++ "c"`, its own instance key. -/
theorem emby_task_source_tags_witness :
    ((([demoBackend] : List EmbyBackend).length = 1 →
        demoEmbyResult.source = "emby") ∧
     (2 ≤ ([demoBackend] : List EmbyBackend).length →
        demoEmbyResult.source = "emby_" ++ demoBackend.cfg.key)) ∧
    ((([demoBackend, demoBackendC] : List EmbyBackend).length = 1 →
        demoEmbyResultC.source = "emby") ∧
     (2 ≤ ([demoBackend, demoBackendC] : List EmbyBackend).length →
        demoEmbyResultC.source = "emby_" ++ demoBackendC.cfg.key)) :=
  ⟨emby_task_source_tags [demoBackend] demoBackend
      (List.mem_singleton.mpr rfl) demoEmbyResult (by decide),
   emby_task_source_tags [demoBackend, demoBackendC] demoBackendC
      (List.mem_cons_of_mem _ (List.mem_singleton.mpr rfl)) demoEmbyResultC
      (by decide)⟩

/-! ## C1: the search aggregate drops the Emby contributions -/

/-- C1 (code bug).  With one enabled Emby instance whose search task
fulfils with a result and no API sites, the handler returns the empty list
even though the instance's task produced a non-empty contribution: the
`embyPromises` results are computed but never awaited into the aggregate,
so no enabled Emby instance's contribution ever reaches the caller. -/
theorem search_drops_emby_contributions :
    searchAggregate false [] "test" [demoBackend] [] = [] ∧
    (embyPromisesResults [demoBackend]).flatten = [demoEmbyResult] ∧
    [demoEmbyResult] ≠ ([] : List SearchResultM) := by
  refine ⟨by decide, by decide, by decide⟩

/-! ## C3: failure isolation across tasks -/

/-- C3 (code bug).  With one fulfilled Emby task and two API-site tasks of
which one throws, the aggregate contains exactly the fulfilled API site's
results — the throwing task degraded to an empty contribution and did not
fail the call, but the remaining (successful) Emby task's non-empty results
are missing from the aggregate, contradicting the claim that the combined
results of all remaining tasks are returned. -/
theorem search_failure_isolation_bug :
    searchAggregate false [] "q" [demoBackend]
        [.throws, .fulfilled [demoApiResult]] = [demoApiResult] ∧
    (embyPromisesResults [demoBackend]).flatten = [demoEmbyResult] ∧
    demoEmbyResult ∉ [demoApiResult] := by
  refine ⟨by decide, by decide, by decide⟩

/-! ## C5: episode ordering of the Emby series detail -/

theorem epKeyLe_total (a b : EmbyEpisode) : epKeyLe a b ∨ epKeyLe b a := by
  unfold epKeyLe
  omega

theorem epKeyLe_trans (a b c : EmbyEpisode) (h1 : epKeyLe a b)
    (h2 : epKeyLe b c) : epKeyLe a c := by
  unfold epKeyLe at *
  omega

/-- When the `|| 0` defaults of two season indices coincide only if the raw
values do, the comparator order agrees with the lexicographic key order. -/
theorem embyLe_agrees (a b : EmbyEpisode)
    (h : numOr0 a.ParentIndexNumber = numOr0 b.ParentIndexNumber →
      a.ParentIndexNumber = b.ParentIndexNumber) :
    (embyLe a b ↔ epKeyLe a b) := by
  unfold embyLe embyCompare epKeyLe
  by_cases hpin : a.ParentIndexNumber = b.ParentIndexNumber
  · rw [if_neg (by simp [hpin])]
    have hd : numOr0 a.ParentIndexNumber = numOr0 b.ParentIndexNumber := by
      rw [hpin]
    omega
  · rw [if_pos hpin]
    have hne : numOr0 a.ParentIndexNumber ≠ numOr0 b.ParentIndexNumber :=
      fun he => hpin (h he)
    omega

theorem orderedInsert_sorted_agrees (a : EmbyEpisode) (l : List EmbyEpisode)
    (hag : ∀ x ∈ l, (embyLe a x ↔ epKeyLe a x))
    (hs : List.Sorted epKeyLe l) :
    List.Sorted epKeyLe (List.orderedInsert embyLe a l) := by
  induction l with
  | nil => simp
  | cons b t ih =>
      rw [List.orderedInsert]
      by_cases hab : embyLe a b
      · rw [if_pos hab]
        have hkab : epKeyLe a b := (hag b (by simp)).mp hab
        rw [List.sorted_cons]
        refine ⟨?_, hs⟩
        intro c hc
        rcases List.mem_cons.mp hc with rfl | hc
        · exact hkab
        · exact epKeyLe_trans a b c hkab ((List.sorted_cons.mp hs).1 c hc)
      · rw [if_neg hab]
        have hnab : ¬ epKeyLe a b := fun hk => hab ((hag b (by simp)).mpr hk)
        have hkba : epKeyLe b a := (epKeyLe_total a b).resolve_left hnab
        have hst : List.Sorted epKeyLe t := (List.sorted_cons.mp hs).2
        rw [List.sorted_cons]
        refine ⟨?_, ih (fun x hx => hag x (by simp [hx])) hst⟩
        intro c hc
        rcases (List.mem_orderedInsert embyLe).mp hc with rfl | hc
        · exact hkba
        · exact (List.sorted_cons.mp hs).1 c hc

theorem insertionSort_sorted_agrees (l : List EmbyEpisode)
    (H : ∀ x ∈ l, ∀ y ∈ l, (embyLe x y ↔ epKeyLe x y)) :
    List.Sorted epKeyLe (l.insertionSort embyLe) := by
  induction l with
  | nil => simp
  | cons a t ih =>
      rw [List.insertionSort]
      apply orderedInsert_sorted_agrees
      · intro x hx
        have hx' : x ∈ t := by simpa using hx
        exact H a (by simp) x (by simp [hx'])
      · exact ih (fun x hx y hy => H x (by simp [hx]) y (by simp [hy]))

/-- C5 (amended).  The episode list `getEmbyDetail` returns for a series is
always a permutation of the concatenation of all seasons' episodes (missing
indices never drop an episode); and whenever no two episodes carry season
indices that are raw-distinct yet default-equal (one absent, one `0`), the
output is sorted by `(ParentIndexNumber ?? 0, IndexNumber ?? 0)`
ascending. -/
theorem episode_order_amended (seasonEpisodes : List (List EmbyEpisode)) :
    (getEmbyDetailEpisodes seasonEpisodes).Perm seasonEpisodes.flatten ∧
    ((∀ a ∈ seasonEpisodes.flatten, ∀ b ∈ seasonEpisodes.flatten,
        numOr0 a.ParentIndexNumber = numOr0 b.ParentIndexNumber →
          a.ParentIndexNumber = b.ParentIndexNumber) →
      List.Sorted epKeyLe (getEmbyDetailEpisodes seasonEpisodes)) := by
  constructor
  · exact List.perm_insertionSort embyLe seasonEpisodes.flatten
  · intro H
    exact insertionSort_sorted_agrees seasonEpisodes.flatten
      (fun x hx y hy => embyLe_agrees x y (H x hx y hy))

/-- C5 counterexample: an episode with an absent season index and episode
index 5 before an episode with season index 0 and episode index 1.  The
comparator sees raw-distinct season indices whose defaults tie, returns 0
without the episode tie-break, and the stable sort keeps the pair in place,
so the output is not ordered by `(ParentIndexNumber ?? 0,
IndexNumber ?? 0)` — which would demand `epZero1` (key (0,1)) before
`epNone5` (key (0,5)). -/
theorem episode_order_counterexample :
    getEmbyDetailEpisodes [[epNone5, epZero1]] = [epNone5, epZero1] ∧
    ¬ List.Sorted epKeyLe (getEmbyDetailEpisodes [[epNone5, epZero1]]) := by
  refine ⟨by decide, by decide⟩

/-- C5 witness: on the spec's own example (episodes (1,2),(1,1),(2,1) plus
one missing both indices) the hypothesis holds, and the output is the
permutation sorted with the missing episode first, not dropped. -/
theorem episode_order_amended_witness :
    (getEmbyDetailEpisodes exSeasons).Perm exSeasons.flatten ∧
    List.Sorted epKeyLe (getEmbyDetailEpisodes exSeasons) ∧
    getEmbyDetailEpisodes exSeasons = [epMissing, ep11, ep12, ep21] :=
  ⟨(episode_order_amended exSeasons).1,
   (episode_order_amended exSeasons).2 (by decide),
   by decide⟩

/-! ## C2: `getClient` resolution and error order -/

/-- C2 counterexample.  With a disabled first source `srcA`, an enabled
second source `srcB`, neither marked default, an empty handle cache and no
key supplied, the claimed resolution (fall back to the first *enabled*
instance) would return a handle for `srcB`, but `getClient` falls back to
`sources[0]` and throws the Disabled error for `srcA`.  Moreover with a
cached handle for the disabled `srcA` and its key supplied, the claim
demands the Disabled error but `getClient` returns the cached handle
without checking the enabled flag. -/
theorem getClient_counterexample :
    getClient [srcA, srcB] ⟨[], 0⟩ none = .error (.disabled "A") ∧
    resolveHandleSpec [srcA, srcB] ⟨[], 0⟩ none =
      .ok (⟨srcB, 0⟩, ⟨[("b", ⟨srcB, 0⟩)], 1⟩) ∧
    getClient [srcA, srcB] ⟨[], 0⟩ none ≠
      resolveHandleSpec [srcA, srcB] ⟨[], 0⟩ none ∧
    getClient [srcA] stWithA (some "a") = .ok (cachedA, stWithA) ∧
    resolveHandleSpec [srcA] stWithA (some "a") = .error (.disabled "A") := by
  refine ⟨by decide, by decide, by decide, by decide, by decide⟩

/-- C2 (amended).  `getClient` coincides, on every source list, manager
state and key argument, with the amended contract: key omitted or empty
resolves to the `isDefault` instance with fallback to the *first* instance
regardless of its enabled flag; zero instances fail NotConfigured; a cached
handle for the resolved key is returned without further checks; an uncached
key fails NotFound when unmatched and Disabled when the matched instance is
disabled, and otherwise a new handle is constructed, cached and
returned. -/
theorem getClient_amended (sources : List EmbySourceConfig)
    (st : ManagerState) (keyArg : Option String) :
    getClient sources st keyArg = resolveHandleAmended sources st keyArg := by
  cases sources with
  | nil => rfl
  | cons s0 rest => cases keyArg <;> rfl

/-! ## C10: handle-cache uniqueness -/

theorem getAllClientsStep_preserves (k : String) (c : EmbyClient)
    (acc : List (String × (EmbyClient × EmbySourceConfig)) × ManagerState)
    (source : EmbySourceConfig)
    (h1 : lookupAssoc acc.2.clients k = some c)
    (h2 : ∀ p ∈ acc.1, p.1 = k → p.2.1 = c) :
    lookupAssoc (getAllClientsStep acc source).2.clients k = some c ∧
    ∀ p ∈ (getAllClientsStep acc source).1, p.1 = k → p.2.1 = c := by
  rcases hlook : lookupAssoc acc.2.clients source.key with _ | c' <;>
    simp only [getAllClientsStep, hlook]
  · refine ⟨lookupAssoc_append_left _ _ _ _ h1, ?_⟩
    intro p hp hpk
    rcases mem_setAssoc _ _ _ p hp with rfl | hp'
    · exfalso
      simp only at hpk
      rw [hpk] at hlook
      rw [h1] at hlook
      exact Option.noConfusion hlook
    · exact h2 p hp' hpk
  · refine ⟨h1, ?_⟩
    intro p hp hpk
    rcases mem_setAssoc _ _ _ p hp with rfl | hp'
    · simp only at hpk ⊢
      rw [hpk] at hlook
      rw [h1] at hlook
      exact (Option.some_inj.mp hlook).symm
    · exact h2 p hp' hpk

theorem getAllClients_foldl_preserves (k : String) (c : EmbyClient) :
    ∀ (srcs : List EmbySourceConfig)
      (acc : List (String × (EmbyClient × EmbySourceConfig)) × ManagerState),
    lookupAssoc acc.2.clients k = some c →
    (∀ p ∈ acc.1, p.1 = k → p.2.1 = c) →
    lookupAssoc (srcs.foldl getAllClientsStep acc).2.clients k = some c ∧
    ∀ p ∈ (srcs.foldl getAllClientsStep acc).1, p.1 = k → p.2.1 = c := by
  intro srcs
  induction srcs with
  | nil => exact fun acc h1 h2 => ⟨h1, h2⟩
  | cons s rest ih =>
      intro acc h1 h2
      rw [List.foldl_cons]
      obtain ⟨h1', h2'⟩ := getAllClientsStep_preserves k c acc s h1 h2
      exact ih _ h1' h2'

/-- C10.  Once a client is cached for a key: `getClient` with that key
returns exactly the cached handle and leaves the state untouched;
`getAllClients` keeps the cached handle in the clients map and every result
entry for that key carries it (no second construction); `clearCache`
empties the map; and after `clearCache` a resolution for an existing
enabled source constructs a fresh handle and caches it. -/
theorem handle_cache_uniqueness :
    (∀ (sources : List EmbySourceConfig) (st : ManagerState) (k : String)
        (c : EmbyClient), sources ≠ [] → k ≠ "" →
      lookupAssoc st.clients k = some c →
      getClient sources st (some k) = .ok (c, st)) ∧
    (∀ (sources : List EmbySourceConfig) (st : ManagerState) (k : String)
        (c : EmbyClient), lookupAssoc st.clients k = some c →
      lookupAssoc (getAllClients sources st).2.clients k = some c ∧
      ∀ p ∈ (getAllClients sources st).1, p.1 = k → p.2.1 = c) ∧
    (∀ st : ManagerState, (clearCache st).clients = []) ∧
    (∀ (sources : List EmbySourceConfig) (st : ManagerState) (k : String)
        (sc : EmbySourceConfig), sources ≠ [] → k ≠ "" →
      sources.find? (fun s => s.key == k) = some sc → sc.enabled = true →
      getClient sources (clearCache st) (some k) =
        .ok (⟨sc, st.nextId⟩,
             ⟨[(k, ⟨sc, st.nextId⟩)], st.nextId + 1⟩)) := by
  refine ⟨?_, ?_, ?_, ?_⟩
  · intro sources st k c hne hk hcache
    cases sources with
    | nil => exact absurd rfl hne
    | cons s0 rest => simp [getClient, hk, hcache]
  · intro sources st k c hcache
    exact getAllClients_foldl_preserves k c _ ([], st) hcache
      (fun p hp => absurd hp (List.not_mem_nil p))
  · intro st
    rfl
  · intro sources st k sc hne hk hfind henabled
    cases sources with
    | nil => exact absurd rfl hne
    | cons s0 rest =>
        simp [getClient, hk, clearCache, lookupAssoc, hfind, henabled]

/-- C10 witness: with `cachedB` cached for `"b"`, `getClient` and
`getAllClients` both reuse it, `clearCache` empties the map, and the next
resolution constructs afresh. -/
theorem handle_cache_uniqueness_witness :
    getClient [srcB] stWithB (some "b") = .ok (cachedB, stWithB) ∧
    lookupAssoc (getAllClients [srcB] stWithB).2.clients "b" = some cachedB ∧
    (clearCache stWithB).clients = [] ∧
    getClient [srcB] (clearCache stWithB) (some "b") =
      .ok (⟨srcB, stWithB.nextId⟩,
           ⟨[("b", ⟨srcB, stWithB.nextId⟩)], stWithB.nextId + 1⟩) :=
  ⟨handle_cache_uniqueness.1 [srcB] stWithB "b" cachedB (by decide) (by decide)
      (by decide),
   (handle_cache_uniqueness.2.1 [srcB] stWithB "b" cachedB (by decide)).1,
   handle_cache_uniqueness.2.2.1 stWithB,
   handle_cache_uniqueness.2.2.2 [srcB] stWithB "b" srcB (by decide)
      (by decide) (by decide) (by decide)⟩

end LunaTV
